import Mathlib

set_option maxRecDepth 10000

/-!
Verification of the `check-services.py` Tor hidden-service monitor.

The program is embedded shallowly:
* Python strings are `List Char` (Python `str` is a sequence of code points,
  and `str.find` / slicing are code-point indexed, so `List Char` with
  natural-number indices is the faithful model).
* The CSV rows (`csv.DictReader` dictionaries) become the `Service`
  structure; a missing key, looked up with `dict.get(k, default)`, is an
  `Option` field read with `Option.getD`.
* The network (`session.get`) is a parameter `net : List Char → ProbeOutcome`
  mapping the requested URL either to a response with a status code or to a
  raised transport-level exception; the `try/except` of
  `check_onion_service` becomes a total `match` on that outcome.
* File contents are passed explicitly; a file that may be absent is an
  `Option (List Char)` (`none` = `FileNotFoundError`).
* `datetime.utcnow().strftime(...)` is a parameter `ts : List Char`.
-/

namespace TC

/-- One row of `services.csv` as produced by `csv.DictReader`: a dictionary
whose keys may be absent.  `name`, `url`, `description` are the recognized
columns. -/
structure Service where
  name : Option (List Char)
  url : Option (List Char)
  description : Option (List Char)
deriving DecidableEq

/-- The kind of transport-level exception raised by `session.get`
(`requests` exceptions: timeout, connection refused, proxy error, TLS
failure, or any other `Exception`). -/
inductive FailureKind where
  | timeout
  | connectionRefused
  | proxyError
  | tlsFailure
  | generic
deriving DecidableEq

/-- The observable outcome of `session.get(url, timeout=timeout)`: either a
response carrying `response.status_code`, or a raised exception. -/
inductive ProbeOutcome where
  | response (statusCode : Nat)
  | failure (kind : FailureKind)
deriving DecidableEq

/-- Lines 27–28 of `check_onion_service`:
`if not url.startswith('http'): url = f'http://{url}'`. -/
def normalizeUrl (url : List Char) : List Char :=
  if "http".toList.isPrefixOf url then url else "http://".toList ++ url

/-- `check_onion_service` (lines 14–34): normalize the URL, issue the GET
(modelled by `net`), classify `status_code < 500` as online; every raised
exception is caught by the bare `except Exception` and yields `False`
(the function is total: no exception propagates). -/
def check_onion_service (net : List Char → ProbeOutcome) (url : List Char) : Bool :=
  match net (normalizeUrl url) with
  | .response code => decide (code < 500)
  | .failure _ => false

/-- Error raised by `read_services_csv` when `open(filename)` fails. -/
inductive LoadError where
  | missingInputFile
deriving DecidableEq

/-- `read_services_csv` (lines 36–46): `open` the file and collect the
`csv.DictReader` rows in order.  The file system is modelled as
`Option (List Service)`: `none` means the file is absent, in which case
`open` raises `FileNotFoundError`, which this function does not catch —
it propagates to the caller as `Except.error .missingInputFile`.  CSV
decoding itself (splitting the text into row dictionaries) is abstracted:
the file content is given directly as its ordered row list. -/
def read_services_csv (file : Option (List Service)) : Except LoadError (List Service) :=
  match file with
  | none => .error .missingInputFile
  | some rows => .ok rows

/-- `service.get('name', 'Unknown')`. -/
def getName (s : Service) : List Char := s.name.getD "Unknown".toList

/-- `service.get('url', '')`. -/
def getUrl (s : Service) : List Char := s.url.getD []

/-- `service.get('description', '')`. -/
def getDesc (s : Service) : List Char := s.description.getD []

/-- Python `str(n)` for a natural number: decimal digits. -/
def natChars (n : Nat) : List Char := Nat.toDigits 10 n

/-- Lines 66–75: the block emitted for one online service. -/
def onlineItem (s : Service) : List Char :=
  "- **".toList ++ getName s ++ "**\n".toList
    ++ "  - URL: `".toList ++ getUrl s ++ "`\n".toList
    ++ (if (getDesc s).isEmpty then [] else "  - ".toList ++ getDesc s ++ "\n".toList)
    ++ "\n".toList

/-- Line 85: the line emitted for one offline service. -/
def offlineItem (s : Service) : List Char :=
  "- **".toList ++ getName s ++ "** - `".toList ++ getUrl s ++ "`\n".toList

/-- Lines 65–77: the online subsection body (`if online_services:` is
Python truthiness, i.e. non-emptiness). -/
def onlineBlock (l : List Service) : List Char :=
  if l.isEmpty then "*No services are currently online.*\n\n".toList
  else (l.map onlineItem).flatten

/-- Lines 81–87: the offline subsection body. -/
def offlineBlock (l : List Service) : List Char :=
  if l.isEmpty then "*All services are online!*\n".toList
  else (l.map offlineItem).flatten

/-- Lines 57–89: the full `status_content` string built by `update_readme`,
with the timestamp as a parameter. -/
def status_content (online offline : List Service) (ts : List Char) : List Char :=
  "## 🧅 Tor Hidden Services Status\n\n*Last checked: ".toList ++ ts
    ++ "*\n\n### ✅ Online Services (".toList ++ natChars online.length ++ ")\n\n".toList
    ++ onlineBlock online
    ++ "### ❌ Offline Services (".toList ++ natChars offline.length ++ ")\n\n".toList
    ++ offlineBlock offline
    ++ "\n---\n".toList

/-- The interior of the rendered section: everything of `status_content`
strictly between the leading start-marker literal and the trailing
end-marker literal. -/
def status_mid (online offline : List Service) (ts : List Char) : List Char :=
  "\n\n*Last checked: ".toList ++ ts
    ++ "*\n\n### ✅ Online Services (".toList ++ natChars online.length ++ ")\n\n".toList
    ++ onlineBlock online
    ++ "### ❌ Offline Services (".toList ++ natChars offline.length ++ ")\n\n".toList
    ++ offlineBlock offline

/-- Line 99: `start_marker = "## 🧅 Tor Hidden Services Status"`. -/
def start_marker : List Char := "## 🧅 Tor Hidden Services Status".toList

/-- Line 100: `end_marker = "\n---\n"`. -/
def end_marker : List Char := "\n---\n".toList

/-- Line 96: the document used when `README.md` does not exist. -/
def defaultReadme : List Char := "# Tor Hidden Services Monitor\n\n".toList

/-- Python `s.find(pat)` on the character sequence: index of the first
occurrence, `none` for Python's `-1`. -/
def strFind (pat : List Char) : List Char → Option Nat
  | [] => if pat.isPrefixOf ([] : List Char) then some 0 else none
  | c :: rest =>
      if pat.isPrefixOf (c :: rest) then some 0
      else (strFind pat rest).map (· + 1)

/-- Python `s.find(pat, start)`: first occurrence at index ≥ `start`. -/
def strFindFrom (pat s : List Char) (start : Nat) : Option Nat :=
  (strFind pat (s.drop start)).map (· + start)

/-- Lines 102–114 of `update_readme`: splice `status` into `readme`.
`start_marker in readme` is `strFind … ≠ none`; when present,
`end_idx = readme.find(end_marker, start_idx)`; found ⇒ replace
`readme[:start_idx] + status + readme[end_idx + len(end_marker):]`;
not found ⇒ `readme[:start_idx] + status`; marker absent ⇒
`readme + "\n" + status`. -/
def spliceStatus (status readme : List Char) : List Char :=
  match strFind start_marker readme with
  | none => readme ++ "\n".toList ++ status
  | some start_idx =>
      match strFindFrom end_marker readme start_idx with
      | none => readme.take start_idx ++ status
      | some e => readme.take start_idx ++ status ++ readme.drop (e + end_marker.length)

/-- `update_readme` (lines 48–118): render `status_content`, read the
existing README (or the default when the file is absent), splice, and
return the written content. -/
def update_readme (online offline : List Service) (ts : List Char)
    (readmeFile : Option (List Char)) : List Char :=
  spliceStatus (status_content online offline ts) (readmeFile.getD defaultReadme)

/-- The partition loop of `main` (lines 131–145): iterate over the loaded
services in order, appending each to `online_services` or
`offline_services` according to the probe. -/
def partitionLoop (probe : Service → Bool) : List Service → List Service × List Service
  | [] => ([], [])
  | s :: rest =>
      let p := partitionLoop probe rest
      if probe s then (s :: p.1, p.2) else (p.1, s :: p.2)

/-- `main` (lines 120–153): load the CSV; on `FileNotFoundError` print and
return (`none`: nothing probed, no report written).  Otherwise partition
the services by `check_onion_service` on `service.get('url', '')` and
write the updated README. -/
def mainRun (file : Option (List Service)) (net : List Char → ProbeOutcome)
    (ts : List Char) (readmeFile : Option (List Char)) : Option (List Char) :=
  match read_services_csv file with
  | .error _ => none
  | .ok services =>
      let p := partitionLoop (fun s => check_onion_service net (getUrl s)) services
      some (update_readme p.1 p.2 ts readmeFile)

/-- `pat` occurs in `s` at index `i`. -/
def occursAt (pat s : List Char) (i : Nat) : Prop :=
  pat.isPrefixOf (s.drop i) = true

instance (pat s : List Char) (i : Nat) : Decidable (occursAt pat s i) :=
  inferInstanceAs (Decidable (pat.isPrefixOf (s.drop i) = true))

/-- No occurrence of `pat` in `s` at an index in `[lo, hi)`. -/
def noOccIn (pat s : List Char) (lo hi : Nat) : Prop :=
  ∀ i, i < hi → lo ≤ i → ¬ occursAt pat s i

instance (pat s : List Char) (lo hi : Nat) : Decidable (noOccIn pat s lo hi) :=
  inferInstanceAs (Decidable (∀ i, i < hi → lo ≤ i → ¬ occursAt pat s i))

/-- Number of indices at which `pat` occurs in `s` (for non-empty `pat`). -/
def countOcc (pat : List Char) : List Char → Nat
  | [] => 0
  | c :: rest => (if pat.isPrefixOf (c :: rest) then 1 else 0) + countOcc pat rest

/-! ### Lemmas about the string-search vocabulary -/

theorem isPrefixOf_nil_eq_false {pat : List Char} (hp : pat ≠ []) :
    pat.isPrefixOf ([] : List Char) = false := by
  cases pat with
  | nil => exact absurd rfl hp
  | cons a l => rfl

theorem occursAt_iff_prefix {pat s : List Char} {i : Nat} :
    occursAt pat s i ↔ pat <+: s.drop i := by
  unfold occursAt
  exact List.isPrefixOf_iff_prefix

theorem not_occursAt_of_length_le {pat s : List Char} {i : Nat} (hp : pat ≠ [])
    (h : s.length ≤ i) : ¬ occursAt pat s i := by
  unfold occursAt
  rw [List.drop_eq_nil_of_le h, isPrefixOf_nil_eq_false hp]
  simp

theorem occursAt_cons_succ {pat : List Char} {c : Char} {rest : List Char} {i : Nat} :
    occursAt pat (c :: rest) (i + 1) ↔ occursAt pat rest i := by
  unfold occursAt
  rw [List.drop_succ_cons]

theorem strFind_some_iff {pat : List Char} (hp : pat ≠ []) (s : List Char) (i : Nat) :
    strFind pat s = some i ↔
      occursAt pat s i ∧ ∀ j, j < i → ¬ occursAt pat s j := by
  induction s generalizing i with
  | nil =>
      simp only [strFind, isPrefixOf_nil_eq_false hp, Bool.false_eq_true, if_false]
      constructor
      · intro h; exact absurd h (by simp)
      · rintro ⟨hocc, -⟩
        exact absurd hocc (by simp [occursAt, isPrefixOf_nil_eq_false hp])
  | cons c rest ih =>
      by_cases h : pat.isPrefixOf (c :: rest) = true
      · simp only [strFind, h, if_true]
        constructor
        · intro he
          have hi : i = 0 := by
            have := Option.some.inj he
            omega
          subst hi
          refine ⟨h, ?_⟩
          intro j hj
          omega
        · rintro ⟨-, hmin⟩
          cases i with
          | zero => rfl
          | succ j =>
              exact absurd h (hmin 0 (Nat.succ_pos j))
      · simp only [strFind, h, Bool.false_eq_true, if_false, Option.map_eq_some']
        constructor
        · rintro ⟨i', hfind, rfl⟩
          obtain ⟨hocc, hmin⟩ := (ih i').mp hfind
          refine ⟨occursAt_cons_succ.mpr hocc, ?_⟩
          intro j hj
          cases j with
          | zero => exact fun hc => h hc
          | succ j' =>
              intro hc
              exact hmin j' (by omega) (occursAt_cons_succ.mp hc)
        · rintro ⟨hocc, hmin⟩
          cases i with
          | zero => exact absurd hocc h
          | succ i' =>
              refine ⟨i', (ih i').mpr ⟨occursAt_cons_succ.mp hocc, ?_⟩, rfl⟩
              intro j hj hc
              exact hmin (j + 1) (by omega) (occursAt_cons_succ.mpr hc)

theorem strFind_eq_none {pat : List Char} (hp : pat ≠ []) (s : List Char)
    (h : ∀ i, ¬ occursAt pat s i) : strFind pat s = none := by
  induction s with
  | nil => simp [strFind, isPrefixOf_nil_eq_false hp]
  | cons c rest ih =>
      have h0 : ¬ (pat.isPrefixOf (c :: rest) = true) := h 0
      simp only [strFind, h0, Bool.false_eq_true, if_false]
      rw [ih (fun i hc => h (i + 1) (occursAt_cons_succ.mpr hc))]
      rfl

theorem countOcc_eq_zero {pat s : List Char}
    (h : ∀ i, ¬ occursAt pat s i) : countOcc pat s = 0 := by
  induction s with
  | nil => rfl
  | cons c rest ih =>
      have h0 : ¬ (pat.isPrefixOf (c :: rest) = true) := h 0
      simp only [countOcc, h0, Bool.false_eq_true, if_false]
      have := ih (fun i hc => h (i + 1) (occursAt_cons_succ.mpr hc))
      omega

theorem countOcc_eq_one {pat s : List Char} {k : Nat}
    (hk : occursAt pat s k) (h : ∀ i, i ≠ k → ¬ occursAt pat s i) :
    countOcc pat s = 1 := by
  induction s generalizing k with
  | nil =>
      cases pat with
      | nil =>
          have h1 : occursAt ([] : List Char) [] (k + 1) := by
            simp [occursAt, List.isPrefixOf]
          exact absurd h1 (h (k + 1) (by omega))
      | cons a l =>
          exact absurd hk (by simp [occursAt, List.isPrefixOf])
  | cons c rest ih =>
      cases k with
      | zero =>
          have hk' : pat.isPrefixOf (c :: rest) = true := hk
          simp only [countOcc, hk', if_true]
          have : countOcc pat rest = 0 :=
            countOcc_eq_zero (fun i hc => h (i + 1) (by omega) (occursAt_cons_succ.mpr hc))
          omega
      | succ k' =>
          have h0 : ¬ (pat.isPrefixOf (c :: rest) = true) := h 0 (by omega)
          simp only [countOcc, h0, Bool.false_eq_true, if_false]
          have := ih (occursAt_cons_succ.mp hk)
            (fun i hi hc => h (i + 1) (by omega) (occursAt_cons_succ.mpr hc))
          omega

/-! ### Structural description of the splice -/

theorem start_marker_ne_nil : start_marker ≠ [] := by decide

theorem end_marker_ne_nil : end_marker ≠ [] := by decide

theorem strFind_start_of_decomp {pre R doc : List Char}
    (hdoc : doc = pre ++ R) (hR : start_marker <+: R)
    (h1 : noOccIn start_marker doc 0 pre.length) :
    strFind start_marker doc = some pre.length := by
  rw [strFind_some_iff start_marker_ne_nil]
  refine ⟨?_, fun j hj => h1 j hj (Nat.zero_le j)⟩
  unfold occursAt
  rw [hdoc, List.drop_left]
  exact List.isPrefixOf_iff_prefix.mpr hR

/-- When the document decomposes as `pre ++ start_marker ++ mid ++ end_marker ++ post`
with no earlier start-marker occurrence and no earlier end-marker occurrence at
or after the start marker, the splice replaces exactly the section span. -/
theorem splice_replace (status pre mid post : List Char)
    (h1 : noOccIn start_marker (pre ++ start_marker ++ mid ++ end_marker ++ post)
            0 pre.length)
    (h2 : noOccIn end_marker (pre ++ start_marker ++ mid ++ end_marker ++ post)
            pre.length (pre.length + start_marker.length + mid.length)) :
    spliceStatus status (pre ++ start_marker ++ mid ++ end_marker ++ post)
      = pre ++ status ++ post := by
  set doc := pre ++ start_marker ++ mid ++ end_marker ++ post with hdocdef
  have hdoc : doc = pre ++ (start_marker ++ (mid ++ (end_marker ++ post))) := by
    simp [hdocdef, List.append_assoc]
  have hfind_sm : strFind start_marker doc = some pre.length :=
    strFind_start_of_decomp hdoc (List.prefix_append _ _) h1
  have hdrop_pre : doc.drop pre.length = start_marker ++ (mid ++ (end_marker ++ post)) := by
    rw [hdoc]; exact List.drop_left _ _
  have hfind_em : strFindFrom end_marker doc pre.length
      = some (start_marker.length + mid.length + pre.length) := by
    unfold strFindFrom
    rw [hdrop_pre]
    have hmain : strFind end_marker (start_marker ++ (mid ++ (end_marker ++ post)))
        = some (start_marker.length + mid.length) := by
      rw [strFind_some_iff end_marker_ne_nil]
      constructor
      · unfold occursAt
        have hsplit : start_marker ++ (mid ++ (end_marker ++ post))
            = (start_marker ++ mid) ++ (end_marker ++ post) := by
          simp [List.append_assoc]
        rw [hsplit, ← List.length_append, List.drop_left]
        exact List.isPrefixOf_iff_prefix.mpr (List.prefix_append _ _)
      · intro j hj hocc
        have hshift : occursAt end_marker doc (pre.length + j) := by
          unfold occursAt
          rw [← List.drop_drop, hdrop_pre]
          exact hocc
        exact h2 (pre.length + j) (by omega) (by omega) hshift
    rw [hmain]
    rfl
  have htake : doc.take pre.length = pre := by
    rw [hdoc]; exact List.take_left _ _
  have hdropend : doc.drop (start_marker.length + mid.length + pre.length
      + end_marker.length) = post := by
    have hsplit : doc = (pre ++ start_marker ++ mid ++ end_marker) ++ post := by
      simp [hdocdef, List.append_assoc]
    have hlen : start_marker.length + mid.length + pre.length + end_marker.length
        = (pre ++ start_marker ++ mid ++ end_marker).length := by
      simp [List.length_append]
      omega
    rw [hsplit, hlen]
    exact List.drop_left _ _
  simp only [spliceStatus, hfind_sm, hfind_em, htake, hdropend]

/-- When the start marker does not occur in the document, the splice appends
one newline and the rendered section after the unchanged document. -/
theorem splice_append (status readme : List Char)
    (h : ∀ i, i < readme.length → ¬ occursAt start_marker readme i) :
    spliceStatus status readme = readme ++ "\n".toList ++ status := by
  have hnone : strFind start_marker readme = none := by
    apply strFind_eq_none start_marker_ne_nil
    intro i hocc
    by_cases hi : i < readme.length
    · exact h i hi hocc
    · exact not_occursAt_of_length_le start_marker_ne_nil (by omega) hocc
  simp only [spliceStatus, hnone]

/-- When the start marker occurs but no end marker occurs at or after it, the
splice keeps the prefix before the start marker and drops the whole rest. -/
theorem splice_truncate (status pre rest : List Char)
    (h1 : noOccIn start_marker (pre ++ start_marker ++ rest) 0 pre.length)
    (h2 : ∀ j, j < (pre ++ start_marker ++ rest).length → pre.length ≤ j →
            ¬ occursAt end_marker (pre ++ start_marker ++ rest) j) :
    spliceStatus status (pre ++ start_marker ++ rest) = pre ++ status := by
  set doc := pre ++ start_marker ++ rest with hdocdef
  have hdoc : doc = pre ++ (start_marker ++ rest) := by
    simp [hdocdef, List.append_assoc]
  have hfind_sm : strFind start_marker doc = some pre.length :=
    strFind_start_of_decomp hdoc (List.prefix_append _ _) h1
  have hdrop_pre : doc.drop pre.length = start_marker ++ rest := by
    rw [hdoc]; exact List.drop_left _ _
  have hfind_em : strFindFrom end_marker doc pre.length = none := by
    unfold strFindFrom
    rw [hdrop_pre]
    have hnone : strFind end_marker (start_marker ++ rest) = none := by
      apply strFind_eq_none end_marker_ne_nil
      intro i hocc
      have hshift : occursAt end_marker doc (pre.length + i) := by
        unfold occursAt
        rw [← List.drop_drop, hdrop_pre]
        exact hocc
      by_cases hi : pre.length + i < doc.length
      · exact h2 (pre.length + i) hi (by omega) hshift
      · exact not_occursAt_of_length_le end_marker_ne_nil (by omega) hshift
    rw [hnone]
    rfl
  have htake : doc.take pre.length = pre := by
    rw [hdoc]; exact List.take_left _ _
  simp only [spliceStatus, hfind_sm, hfind_em, htake]

/-! ### Structure of the rendered section -/

theorem status_content_decomp (online offline : List Service) (ts : List Char) :
    status_content online offline ts
      = start_marker ++ (status_mid online offline ts ++ end_marker) := by
  unfold status_content status_mid start_marker end_marker
  have h : "## 🧅 Tor Hidden Services Status\n\n*Last checked: ".toList
      = "## 🧅 Tor Hidden Services Status".toList ++ "\n\n*Last checked: ".toList := by
    decide
  rw [h]
  simp [List.append_assoc]

theorem start_marker_prefix_status (online offline : List Service) (ts : List Char) :
    start_marker <+: status_content online offline ts := by
  rw [status_content_decomp]
  exact List.prefix_append _ _

/-- In a document of the shape `pre ++ rendered section ++ post`, the start
marker occurs at `pre.length`; if it occurs nowhere else, it occurs exactly
once. -/
theorem countOcc_splice_result (online offline : List Service) (ts pre post : List Char)
    (h : ∀ i, i < (pre ++ status_content online offline ts ++ post).length →
          i ≠ pre.length →
          ¬ occursAt start_marker (pre ++ status_content online offline ts ++ post) i) :
    countOcc start_marker (pre ++ status_content online offline ts ++ post) = 1 := by
  apply countOcc_eq_one (k := pre.length)
  · unfold occursAt
    have hassoc : pre ++ status_content online offline ts ++ post
        = pre ++ (status_content online offline ts ++ post) :=
      List.append_assoc _ _ _
    rw [hassoc, List.drop_left]
    exact List.isPrefixOf_iff_prefix.mpr
      ((start_marker_prefix_status online offline ts).trans (List.prefix_append _ _))
  · intro i hne
    by_cases hi : i < (pre ++ status_content online offline ts ++ post).length
    · exact h i hi hne
    · exact not_occursAt_of_length_le start_marker_ne_nil (by omega)

/-! ### The partition loop -/

theorem partitionLoop_fst (probe : Service → Bool) (l : List Service) :
    (partitionLoop probe l).1 = l.filter probe := by
  induction l with
  | nil => rfl
  | cons a t ih =>
      by_cases h : probe a <;> simp [partitionLoop, List.filter_cons, h, ih]

theorem partitionLoop_snd (probe : Service → Bool) (l : List Service) :
    (partitionLoop probe l).2 = l.filter (fun s => !probe s) := by
  induction l with
  | nil => rfl
  | cons a t ih =>
      by_cases h : probe a <;> simp [partitionLoop, List.filter_cons, h, ih]

theorem filter_length_partition (probe : Service → Bool) (l : List Service) :
    (l.filter probe).length + (l.filter (fun s => !probe s)).length = l.length := by
  induction l with
  | nil => rfl
  | cons a t ih =>
      by_cases h : probe a <;> simp [List.filter_cons, h] <;> omega

theorem filter_count_partition (probe : Service → Bool) (l : List Service) (s : Service) :
    (l.filter probe).count s + (l.filter (fun x => !probe x)).count s = l.count s := by
  induction l with
  | nil => rfl
  | cons a t ih =>
      by_cases hp : probe a
      · rw [List.filter_cons, List.filter_cons]
        simp only [hp, Bool.not_true, Bool.false_eq_true, if_true, if_false]
        rw [List.count_cons, List.count_cons]
        omega
      · rw [Bool.not_eq_true] at hp
        rw [List.filter_cons, List.filter_cons]
        simp only [hp, Bool.not_false, Bool.false_eq_true, if_true, if_false]
        rw [List.count_cons, List.count_cons]
        omega

/-! ### Claim theorems -/

/-- C1: for every probe outcome assignment and every loaded service list,
`main`'s loop places each service in exactly one of the online/offline
partitions (the occurrence counts of the two partitions sum to the input's,
and no service is a member of both), the partition sizes sum to the number
of services loaded, and each partition preserves the input file order
(it is a sublist of the input). -/
theorem C1_partition_invariant (probe : Service → Bool) (services : List Service) :
    (partitionLoop probe services).1.length + (partitionLoop probe services).2.length
        = services.length
    ∧ (∀ s : Service, (partitionLoop probe services).1.count s
        + (partitionLoop probe services).2.count s = services.count s)
    ∧ (∀ s : Service, ¬ (s ∈ (partitionLoop probe services).1
        ∧ s ∈ (partitionLoop probe services).2))
    ∧ (partitionLoop probe services).1.Sublist services
    ∧ (partitionLoop probe services).2.Sublist services := by
  rw [partitionLoop_fst, partitionLoop_snd]
  refine ⟨filter_length_partition probe services,
    fun s => filter_count_partition probe services s, ?_,
    List.filter_sublist services, List.filter_sublist services⟩
  rintro s ⟨h1, h2⟩
  rw [List.mem_filter] at h1 h2
  have := h1.2
  have := h2.2
  simp_all

/-- C2: for every network behaviour and every URL, if the GET on the
normalized URL yields a response then `check_onion_service` returns `true`
exactly when the status code is below 500 (so any code in 100–499 is
online and any code ≥ 500 is offline), and if the GET raises any transport
failure then it returns `false` — the failure is absorbed, never
propagated (the function is total). -/
theorem C2_probe_classification (net : List Char → ProbeOutcome) (url : List Char) :
    (∀ code : Nat, net (normalizeUrl url) = .response code →
        ((check_onion_service net url = true ↔ code < 500)
          ∧ (100 ≤ code → code < 500 → check_onion_service net url = true)
          ∧ (500 ≤ code → check_onion_service net url = false)))
    ∧ (∀ kind : FailureKind, net (normalizeUrl url) = .failure kind →
        check_onion_service net url = false) := by
  constructor
  · intro code h
    have hc : check_onion_service net url = decide (code < 500) := by
      unfold check_onion_service
      rw [h]
    refine ⟨?_, ?_, ?_⟩
    · rw [hc]; simp
    · intro _ h5; rw [hc]; simp [h5]
    · intro h5; rw [hc]; simp; omega
  · intro kind h
    unfold check_onion_service
    rw [h]

/-- C2 witness: a 404 response is online, a 503 response is offline, a
timeout is offline. -/
theorem C2_probe_classification_witness :
    check_onion_service (fun _ => .response 404) "example.onion".toList = true
    ∧ check_onion_service (fun _ => .response 503) "example.onion".toList = false
    ∧ check_onion_service (fun _ => .failure .timeout) "example.onion".toList = false :=
  ⟨((C2_probe_classification (fun _ => .response 404) "example.onion".toList).1
      404 rfl).2.1 (by omega) (by omega),
   ((C2_probe_classification (fun _ => .response 503) "example.onion".toList).1
      503 rfl).2.2 (by omega),
   (C2_probe_classification (fun _ => .failure .timeout) "example.onion".toList).2
      .timeout rfl⟩

/-- C5: the prober probes the URL unchanged when it starts with the
recognized scheme prefix `http`, and otherwise prepends `http://`; in
particular `example.onion` is probed as `http://example.onion` and
`https://example.onion` is probed unchanged. -/
theorem C5_url_normalization :
    (∀ url : List Char, ¬ ("http".toList.isPrefixOf url = true) →
        normalizeUrl url = "http://".toList ++ url)
    ∧ (∀ url : List Char, "http".toList.isPrefixOf url = true →
        normalizeUrl url = url)
    ∧ normalizeUrl "example.onion".toList = "http://example.onion".toList
    ∧ normalizeUrl "https://example.onion".toList = "https://example.onion".toList := by
  refine ⟨?_, ?_, by decide, by decide⟩
  · intro url h
    unfold normalizeUrl
    rw [if_neg h]
  · intro url h
    unfold normalizeUrl
    rw [if_pos h]

/-- C5 witness: normalization evaluated at concrete URLs through the
theorem. -/
theorem C5_url_normalization_witness :
    normalizeUrl "x.onion".toList = "http://x.onion".toList
    ∧ normalizeUrl "http://y.onion".toList = "http://y.onion".toList :=
  ⟨C5_url_normalization.1 "x.onion".toList (by decide),
   C5_url_normalization.2.1 "http://y.onion".toList (by decide)⟩

/-- C9: when the input file is absent, the loader reports the missing-file
condition to the caller (it is not swallowed), and the run aborts early
with no report update: `main` returns without producing a document,
whatever the network would have answered. -/
theorem C9_missing_input_aborts (net : List Char → ProbeOutcome) (ts : List Char)
    (readmeFile : Option (List Char)) :
    read_services_csv none = .error .missingInputFile
    ∧ mainRun none net ts readmeFile = none :=
  ⟨rfl, rfl⟩

theorem onlineBlock_infix_status (online offline : List Service) (ts : List Char) :
    onlineBlock online <:+: status_content online offline ts := by
  refine ⟨"## 🧅 Tor Hidden Services Status\n\n*Last checked: ".toList ++ ts
      ++ "*\n\n### ✅ Online Services (".toList ++ natChars online.length
      ++ ")\n\n".toList,
    "### ❌ Offline Services (".toList ++ natChars offline.length
      ++ ")\n\n".toList ++ offlineBlock offline ++ "\n---\n".toList, ?_⟩
  simp [status_content, List.append_assoc]

theorem offlineBlock_infix_status (online offline : List Service) (ts : List Char) :
    offlineBlock offline <:+: status_content online offline ts := by
  refine ⟨"## 🧅 Tor Hidden Services Status\n\n*Last checked: ".toList ++ ts
      ++ "*\n\n### ✅ Online Services (".toList ++ natChars online.length
      ++ ")\n\n".toList ++ onlineBlock online
      ++ "### ❌ Offline Services (".toList ++ natChars offline.length
      ++ ")\n\n".toList,
    "\n---\n".toList, ?_⟩
  simp [status_content, List.append_assoc]

/-- C6: for every document containing the start-marker literal (first
occurrence at `pre.length`) followed at-or-after that position by an
occurrence of the end-marker literal (first such occurrence ending the
section `start_marker ++ mid ++ end_marker`), the updater replaces exactly
the span from the start marker to the end of that end-marker match: the
output is `pre ++ rendered section ++ post`, so the content before the
start marker and after the end marker is byte-identical pre/post update. -/
theorem C6_replace_exact_span (online offline : List Service) (ts pre mid post : List Char)
    (h1 : noOccIn start_marker (pre ++ start_marker ++ mid ++ end_marker ++ post)
            0 pre.length)
    (h2 : noOccIn end_marker (pre ++ start_marker ++ mid ++ end_marker ++ post)
            pre.length (pre.length + start_marker.length + mid.length)) :
    update_readme online offline ts
        (some (pre ++ start_marker ++ mid ++ end_marker ++ post))
      = pre ++ status_content online offline ts ++ post := by
  unfold update_readme
  exact splice_replace _ pre mid post h1 h2

/-- C6 witness: a two-line document with one well-formed section. -/
theorem C6_replace_exact_span_witness :
    update_readme [] [] "T".toList
        (some ("A\n".toList ++ start_marker ++ "B".toList ++ end_marker ++ "C".toList))
      = "A\n".toList ++ status_content [] [] "T".toList ++ "C".toList :=
  C6_replace_exact_span [] [] "T".toList "A\n".toList "B".toList "C".toList
    (by decide) (by decide)

/-- C7: for every document in which the start-marker literal does not occur,
the updater appends the rendered section at the end, separated from the
fully preserved original content by exactly one inserted newline (the
"blank line" of the spec: `readme + "\n" + status_content`). -/
theorem C7_append_when_absent (online offline : List Service) (ts readme : List Char)
    (h : ∀ i, i < readme.length → ¬ occursAt start_marker readme i) :
    update_readme online offline ts (some readme)
      = readme ++ "\n".toList ++ status_content online offline ts := by
  unfold update_readme
  exact splice_append _ readme h

/-- C7 witness: appending to a marker-free document. -/
theorem C7_append_when_absent_witness :
    update_readme [] [] "T".toList (some "hello\n".toList)
      = "hello\n".toList ++ "\n".toList ++ status_content [] [] "T".toList :=
  C7_append_when_absent [] [] "T".toList "hello\n".toList (by decide)

/-- C8: for every document in which the start-marker literal occurs (first
occurrence at `pre.length`) but no end-marker occurrence exists at or after
it, the replacement span extends to the end of the document: the result is
the content before the start marker followed by the rendered section, and
the entire old remainder from the start marker on is deleted. -/
theorem C8_truncate_without_end (online offline : List Service) (ts pre rest : List Char)
    (h1 : noOccIn start_marker (pre ++ start_marker ++ rest) 0 pre.length)
    (h2 : ∀ j, j < (pre ++ start_marker ++ rest).length → pre.length ≤ j →
            ¬ occursAt end_marker (pre ++ start_marker ++ rest) j) :
    update_readme online offline ts (some (pre ++ start_marker ++ rest))
      = pre ++ status_content online offline ts := by
  unfold update_readme
  exact splice_truncate _ pre rest h1 h2

/-- C8 witness: a section opened but never terminated, with trailing text
that gets deleted. -/
theorem C8_truncate_without_end_witness :
    update_readme [] [] "T".toList
        (some ("A\n".toList ++ start_marker ++ "\ntrailing text".toList))
      = "A\n".toList ++ status_content [] [] "T".toList :=
  C8_truncate_without_end [] [] "T".toList "A\n".toList "\ntrailing text".toList
    (by decide) (by decide)

/-- C3 counterexample: a prior document holding two status sections.  The
updater replaces only the first section, so the output still contains two
occurrences of the start-marker literal — not exactly one. -/
theorem C3_counterexample :
    countOcc start_marker
      (update_readme [] [] "T".toList
        (some (start_marker ++ end_marker ++ start_marker ++ end_marker))) = 2 := by
  decide

/-- C3 (amended): if the prior document contains the start marker only at
the head of a single well-formed section (`pre ++ start_marker ++ mid ++
end_marker ++ post`, no earlier start-marker occurrence, no earlier
end-marker occurrence inside the section) and the spliced result contains
no further start-marker occurrence outside position `pre.length` (no stray
marker in `pre`, `post`, or injected by the service fields), then the
output is exactly `pre ++ rendered section ++ post` — all text outside the
replaced span preserved verbatim — and contains exactly one occurrence of
the start-marker literal. -/
theorem C3_amended_unique_section (online offline : List Service)
    (ts pre mid post : List Char)
    (h1 : noOccIn start_marker (pre ++ start_marker ++ mid ++ end_marker ++ post)
            0 pre.length)
    (h2 : noOccIn end_marker (pre ++ start_marker ++ mid ++ end_marker ++ post)
            pre.length (pre.length + start_marker.length + mid.length))
    (h3 : ∀ i, i < (pre ++ status_content online offline ts ++ post).length →
            i ≠ pre.length →
            ¬ occursAt start_marker (pre ++ status_content online offline ts ++ post) i) :
    update_readme online offline ts
        (some (pre ++ start_marker ++ mid ++ end_marker ++ post))
      = pre ++ status_content online offline ts ++ post
    ∧ countOcc start_marker (pre ++ status_content online offline ts ++ post) = 1 := by
  constructor
  · unfold update_readme
    exact splice_replace _ pre mid post h1 h2
  · exact countOcc_splice_result online offline ts pre post h3

/-- C3 witness: one well-formed section, no stray markers. -/
theorem C3_amended_unique_section_witness :
    update_readme [] [] "T".toList
        (some ("A\n".toList ++ start_marker ++ "B".toList ++ end_marker ++ "C".toList))
      = "A\n".toList ++ status_content [] [] "T".toList ++ "C".toList
    ∧ countOcc start_marker
        ("A\n".toList ++ status_content [] [] "T".toList ++ "C".toList) = 1 :=
  C3_amended_unique_section [] [] "T".toList "A\n".toList "B".toList "C".toList
    (by decide) (by decide) (by decide)

/-- C4 counterexample: starting from a document with two status sections,
running the updater twice still leaves two occurrences of the start-marker
literal: the claim's "exactly one status section after two runs" fails for
this initial document. -/
theorem C4_counterexample :
    countOcc start_marker
      (update_readme [] [] "T".toList
        (some (update_readme [] [] "T".toList
          (some (start_marker ++ end_marker ++ start_marker ++ end_marker))))) = 2 := by
  decide

/-- C4 (amended): on a prior document whose start marker occurs only at the
head of a single well-formed section, and whose spliced result has no
stray marker occurrences (no extra start marker anywhere but `pre.length`,
no end marker inside the section interior), the second run replaces the
first run's section rather than duplicating it: it returns the first run's
output unchanged, which contains exactly one occurrence of the
start-marker literal. -/
theorem C4_amended_idempotent (online offline : List Service)
    (ts pre mid post : List Char)
    (h1 : noOccIn start_marker (pre ++ start_marker ++ mid ++ end_marker ++ post)
            0 pre.length)
    (h2 : noOccIn end_marker (pre ++ start_marker ++ mid ++ end_marker ++ post)
            pre.length (pre.length + start_marker.length + mid.length))
    (h4 : noOccIn end_marker (pre ++ status_content online offline ts ++ post)
            pre.length
            (pre.length + start_marker.length + (status_mid online offline ts).length))
    (h5 : ∀ i, i < (pre ++ status_content online offline ts ++ post).length →
            i ≠ pre.length →
            ¬ occursAt start_marker (pre ++ status_content online offline ts ++ post) i) :
    update_readme online offline ts
        (some (pre ++ start_marker ++ mid ++ end_marker ++ post))
      = pre ++ status_content online offline ts ++ post
    ∧ update_readme online offline ts
        (some (pre ++ status_content online offline ts ++ post))
      = pre ++ status_content online offline ts ++ post
    ∧ countOcc start_marker
        (update_readme online offline ts
          (some (update_readme online offline ts
            (some (pre ++ start_marker ++ mid ++ end_marker ++ post))))) = 1 := by
  have hdoc' : pre ++ status_content online offline ts ++ post
      = pre ++ start_marker ++ status_mid online offline ts ++ end_marker ++ post := by
    rw [status_content_decomp]
    simp [List.append_assoc]
  have hlen : pre.length ≤ (pre ++ status_content online offline ts ++ post).length := by
    simp [List.length_append]
  have h1' : noOccIn start_marker
      (pre ++ start_marker ++ status_mid online offline ts ++ end_marker ++ post)
      0 pre.length := by
    rw [← hdoc']
    intro i hi _
    exact h5 i (by omega) (by omega)
  have h2' : noOccIn end_marker
      (pre ++ start_marker ++ status_mid online offline ts ++ end_marker ++ post)
      pre.length
      (pre.length + start_marker.length + (status_mid online offline ts).length) := by
    rw [← hdoc']
    exact h4
  have hstep1 : update_readme online offline ts
      (some (pre ++ start_marker ++ mid ++ end_marker ++ post))
      = pre ++ status_content online offline ts ++ post := by
    unfold update_readme
    exact splice_replace _ pre mid post h1 h2
  have hstep2 : update_readme online offline ts
      (some (pre ++ status_content online offline ts ++ post))
      = pre ++ status_content online offline ts ++ post := by
    unfold update_readme
    rw [Option.getD_some, hdoc',
      splice_replace _ pre (status_mid online offline ts) post h1' h2']
    exact hdoc'
  refine ⟨hstep1, hstep2, ?_⟩
  rw [hstep1, hstep2]
  exact countOcc_splice_result online offline ts pre post h5

/-- C4 witness: one well-formed section, no stray markers; the two runs
agree and the result holds one section. -/
theorem C4_amended_idempotent_witness :
    update_readme [] [] "T".toList
        (some ("A\n".toList ++ start_marker ++ "B".toList ++ end_marker ++ "C".toList))
      = "A\n".toList ++ status_content [] [] "T".toList ++ "C".toList
    ∧ update_readme [] [] "T".toList
        (some ("A\n".toList ++ status_content [] [] "T".toList ++ "C".toList))
      = "A\n".toList ++ status_content [] [] "T".toList ++ "C".toList
    ∧ countOcc start_marker
        (update_readme [] [] "T".toList
          (some (update_readme [] [] "T".toList
            (some ("A\n".toList ++ start_marker ++ "B".toList
              ++ end_marker ++ "C".toList))))) = 1 :=
  C4_amended_idempotent [] [] "T".toList "A\n".toList "B".toList "C".toList
    (by decide) (by decide) (by decide) (by decide)

/-- C10: with an empty service list (both partitions empty) the rendered
section contains both the online placeholder and the offline placeholder;
moreover the offline placeholder `*All services are online!*` is emitted
whenever the offline list is empty, regardless of the online list. -/
theorem C10_empty_placeholders (online : List Service) (ts : List Char) :
    ("*No services are currently online.*".toList <:+: status_content [] [] ts)
    ∧ ("*All services are online!*".toList <:+: status_content [] [] ts)
    ∧ ("*All services are online!*".toList <:+: status_content online [] ts) := by
  have hon : onlineBlock ([] : List Service)
      = "*No services are currently online.*".toList ++ "\n\n".toList := by decide
  have hoff : offlineBlock ([] : List Service)
      = "*All services are online!*".toList ++ "\n".toList := by decide
  have h1 : "*No services are currently online.*".toList <+: onlineBlock [] := by
    rw [hon]; exact List.prefix_append _ _
  have h2 : "*All services are online!*".toList <+: offlineBlock [] := by
    rw [hoff]; exact List.prefix_append _ _
  exact ⟨h1.isInfix.trans (onlineBlock_infix_status [] [] ts),
    h2.isInfix.trans (offlineBlock_infix_status [] [] ts),
    h2.isInfix.trans (offlineBlock_infix_status online [] ts)⟩

end TC
